import Mathlib

/-!
# Verification of the `lyre` JVM class-file decoder

Shallow embedding of the two decoders in this repository:
`src/class.rs` (namespace `Lyre`) and the older duplicate decoder in
`src/main.rs` (namespace `MainRs`).

Modelling conventions:
* A byte stream is a `List Nat`; each element is one byte of the input.
* The `byteorder` big-endian reads over an `std::io::Cursor` become the
  `readU8/readU16/readU32/readU64/readExact` functions below: a short read
  yields the `Err.io` error (an `std::io::Error` of kind `UnexpectedEof`,
  the spec's `TruncatedInput`).
* Fallible Rust functions returning `Result<T>` become `DRes T`: `ok`
  carries the value and the unread remainder of the stream, `err` carries
  the error.  A Rust panic (an arithmetic-overflow check firing under the
  default debug profile, or `.unwrap()` on an `Err`) is the third outcome
  `crash`, tagged with which panic site fired.
* `f32`/`f64` constants are carried as their raw big-endian bit pattern
  (a `Nat`); the decoder never computes with the floating-point value.
* Rust `String`s are carried as their list of Unicode code points
  (`List Nat`); `String::from_utf8` becomes `utf8Decode`, the standard
  UTF-8 validation/decoding that `std` performs (RFC 3629: no overlong
  forms, no surrogates, max U+10FFFF).
-/

/-- Error type, from the `Error` enum in `src/main.rs` lines 6-19 plus the
variants that `src/class.rs` additionally uses
(`InvalidAccessFlags`, `InvalidConstantPoolIndex`, `InvalidConstantPoolType`). -/
inductive Err where
  | io
  | invalidSignature (magic : Nat)
  | invalidVersion (major minor : Nat)
  | invalidConstantTag (tag : Nat)
  | invalidAccessFlags (bits : Nat)
  | invalidConstantPoolIndex
  | invalidConstantPoolType
deriving DecidableEq, Repr

/-- The two Rust panic sites of the decoder: `u16`/`usize` subtraction
underflow (overflow checks on, the default debug build) and
`String::from_utf8(..).unwrap()` on invalid UTF-8. -/
inductive CrashKind where
  | subUnderflow
  | utf8Invalid
deriving DecidableEq, Repr

/-- Outcome of running a decoding step on a byte stream. -/
inductive DRes (α : Type) where
  | ok (val : α) (rest : List Nat)
  | err (e : Err)
  | crash (k : CrashKind)
deriving DecidableEq, Repr

/-- Outcome of a pure fallible computation (no stream). -/
inductive PRes (α : Type) where
  | ok (val : α)
  | err (e : Err)
  | crash (k : CrashKind)
deriving DecidableEq, Repr

/-- Sequencing of decoding steps; mirrors Rust's `?` operator. -/
def DRes.bind {α β : Type} (r : DRes α) (f : α → List Nat → DRes β) : DRes β :=
  match r with
  | .ok a rest => f a rest
  | .err e => .err e
  | .crash k => .crash k

/-- Lift a pure fallible result into the stream monad (the stream is
untouched). -/
def liftP {α : Type} (r : PRes α) (s : List Nat) : DRes α :=
  match r with
  | .ok a => .ok a s
  | .err e => .err e
  | .crash k => .crash k

/-- `read_u8`: one byte, or `UnexpectedEof`. -/
def readU8 (s : List Nat) : DRes Nat :=
  match s with
  | [] => .err .io
  | b :: rest => .ok b rest

/-- `read_u16::<BigEndian>`. -/
def readU16 (s : List Nat) : DRes Nat :=
  DRes.bind (readU8 s) fun b0 s =>
  DRes.bind (readU8 s) fun b1 s =>
  .ok (b0 * 256 + b1) s

/-- `read_u32::<BigEndian>`. -/
def readU32 (s : List Nat) : DRes Nat :=
  DRes.bind (readU16 s) fun hi s =>
  DRes.bind (readU16 s) fun lo s =>
  .ok (hi * 65536 + lo) s

/-- `read_u64::<BigEndian>`. -/
def readU64 (s : List Nat) : DRes Nat :=
  DRes.bind (readU32 s) fun hi s =>
  DRes.bind (readU32 s) fun lo s =>
  .ok (hi * 4294967296 + lo) s

/-- `read_exact` into a buffer of length `n`: all `n` bytes, or
`UnexpectedEof` when fewer remain. -/
def readExact (n : Nat) (s : List Nat) : DRes (List Nat) :=
  if n ≤ s.length then .ok (s.take n) (s.drop n) else .err .io

/-- `read_vec` body (`src/class.rs` lines 214-225) after its `u16` count has
been read: decode `n` elements in stream order.  The counted loops of
`src/main.rs` (fields/methods/attributes/interfaces) have the same shape. -/
def readList {α : Type} (f : List Nat → DRes α) : Nat → List Nat → DRes (List α)
  | 0, s => .ok [] s
  | n + 1, s =>
    DRes.bind (f s) fun a s =>
    DRes.bind (readList f n s) fun as s =>
    .ok (a :: as) s

/-- `read_vec` (`src/class.rs` lines 214-225): a `u16` count then that many
elements. -/
def read_vec {α : Type} (f : List Nat → DRes α) (s : List Nat) : DRes (List α) :=
  DRes.bind (readU16 s) fun count s =>
  readList f count s

/-- Continuation byte test `0x80..=0xBF` of standard UTF-8. -/
def utf8Cont (c : Nat) : Bool :=
  decide (0x80 ≤ c ∧ c ≤ 0xBF)

/-- Admissible first continuation byte after a 3-byte leading byte `b`
(standard UTF-8 as validated by Rust `std`): `0xE0` requires `0xA0..=0xBF`
(no overlong forms), `0xED` requires `0x80..=0x9F` (no surrogates). -/
def utf8First3 (b c1 : Nat) : Bool :=
  if b = 0xE0 then decide (0xA0 ≤ c1 ∧ c1 ≤ 0xBF)
  else if b = 0xED then decide (0x80 ≤ c1 ∧ c1 ≤ 0x9F)
  else utf8Cont c1

/-- Admissible first continuation byte after a 4-byte leading byte `b`:
`0xF0` requires `0x90..=0xBF` (no overlong forms), `0xF4` requires
`0x80..=0x8F` (max U+10FFFF). -/
def utf8First4 (b c1 : Nat) : Bool :=
  if b = 0xF0 then decide (0x90 ≤ c1 ∧ c1 ≤ 0xBF)
  else if b = 0xF4 then decide (0x80 ≤ c1 ∧ c1 ≤ 0x8F)
  else utf8Cont c1

/-- `String::from_utf8` on a byte buffer: `some` of the decoded code points
when the buffer is valid standard UTF-8, `none` otherwise.  Leading bytes
`0x80..=0xC1` and `0xF5..` are always invalid. -/
def utf8Decode : List Nat → Option (List Nat)
  | [] => some []
  | b :: rest =>
    if b < 0x80 then
      Option.map (fun cps => b :: cps) (utf8Decode rest)
    else if b < 0xC2 then
      none
    else if b ≤ 0xDF then
      match rest with
      | c1 :: r =>
        if utf8Cont c1 then
          Option.map (fun cps => ((b - 0xC0) * 64 + (c1 - 0x80)) :: cps) (utf8Decode r)
        else none
      | [] => none
    else if b ≤ 0xEF then
      match rest with
      | c1 :: c2 :: r =>
        if utf8First3 b c1 && utf8Cont c2 then
          Option.map (fun cps => ((b - 0xE0) * 4096 + (c1 - 0x80) * 64 + (c2 - 0x80)) :: cps)
            (utf8Decode r)
        else none
      | _ => none
    else if b ≤ 0xF4 then
      match rest with
      | c1 :: c2 :: c3 :: r =>
        if utf8First4 b c1 && utf8Cont c2 && utf8Cont c3 then
          Option.map
            (fun cps =>
              ((b - 0xF0) * 262144 + (c1 - 0x80) * 4096 + (c2 - 0x80) * 64 + (c3 - 0x80)) :: cps)
            (utf8Decode r)
        else none
      | _ => none
    else none

namespace Lyre

/-- `Version` (`src/class.rs` lines 7-11). -/
structure Version where
  major : Nat
  minor : Nat
deriving DecidableEq, Repr

/-- `Version::read` (`src/class.rs` lines 14-22): minor is read first,
major second; rejected iff `major > 56 && minor != 0 && minor != 65535`. -/
def Version.read (s : List Nat) : DRes Version :=
  DRes.bind (readU16 s) fun minor s =>
  DRes.bind (readU16 s) fun major s =>
  if 56 < major ∧ minor ≠ 0 ∧ minor ≠ 65535 then
    .err (.invalidVersion major minor)
  else
    .ok { major := major, minor := minor } s

/-- `AccessFlags` (`src/class.rs` lines 38-53): a `u16` bit set. -/
structure AccessFlags where
  bits : Nat
deriving DecidableEq, Repr

def AccessFlags.PUBLIC       : AccessFlags := ⟨0x0001⟩
def AccessFlags.PRIVATE      : AccessFlags := ⟨0x0002⟩
def AccessFlags.PROTECTED    : AccessFlags := ⟨0x0004⟩
def AccessFlags.STATIC       : AccessFlags := ⟨0x0008⟩
def AccessFlags.FINAL        : AccessFlags := ⟨0x0010⟩
def AccessFlags.SYNCHRONIZED : AccessFlags := ⟨0x0020⟩
def AccessFlags.BRIDGE       : AccessFlags := ⟨0x0040⟩
def AccessFlags.VARARGS      : AccessFlags := ⟨0x0080⟩
def AccessFlags.NATIVE       : AccessFlags := ⟨0x0100⟩
def AccessFlags.ABSTRACT     : AccessFlags := ⟨0x0400⟩
def AccessFlags.STRICT       : AccessFlags := ⟨0x0800⟩
def AccessFlags.SYNTHETIC    : AccessFlags := ⟨0x1000⟩

/-- `bitflags`' `Self::all()`: the union of the twelve declared flags. -/
def AccessFlags.all : Nat :=
  0x0001 ||| 0x0002 ||| 0x0004 ||| 0x0008 ||| 0x0010 ||| 0x0020 |||
  0x0040 ||| 0x0080 ||| 0x0100 ||| 0x0400 ||| 0x0800 ||| 0x1000

/-- `bitflags`' `from_bits`: `Some` iff `bits & !Self::all().bits() == 0`
(`!` is `u16` complement, i.e. xor with `0xFFFF`). -/
def AccessFlags.from_bits (bits : Nat) : Option AccessFlags :=
  if bits &&& (0xFFFF ^^^ AccessFlags.all) = 0 then some ⟨bits⟩ else none

/-- `bitflags`' `contains`: `self.bits & other.bits == other.bits`. -/
def AccessFlags.contains (a b : AccessFlags) : Bool :=
  a.bits &&& b.bits == b.bits

/-- `AccessFlags::read` (`src/class.rs` lines 55-60). -/
def AccessFlags.read (s : List Nat) : DRes AccessFlags :=
  DRes.bind (readU16 s) fun bits s =>
  match AccessFlags.from_bits bits with
  | some f => .ok f s
  | none => .err (.invalidAccessFlags bits)

/-- `Constant` (`src/class.rs` lines 62-114).  Variant names adjusted where
the Rust name collides with Lean (`Class` → `classRef`, `String` →
`stringRef`, `Module` → `moduleRef`, `Package` → `packageRef`); `float` and
`double` carry the raw big-endian bit pattern of the `f32`/`f64`.
`src/main.rs` lines 35-95 declare the same union (its scalar variants use a
named `data` field instead of a tuple field, carrying identical data). -/
inductive Constant where
  | utf8 (data : List Nat)
  | integer (data : Nat)
  | float (bits : Nat)
  | long (data : Nat)
  | double (bits : Nat)
  | classRef (name_index : Nat)
  | stringRef (string_index : Nat)
  | fieldRef (class_index name_and_type_index : Nat)
  | methodRef (class_index name_and_type_index : Nat)
  | interfaceMethodRef (class_index name_and_type_index : Nat)
  | nameAndType (name_index descriptor_index : Nat)
  | methodHandle (reference_kind : Nat) (reference_index : Nat)
  | methodType (descriptor_index : Nat)
  | dynamic (bootstrap_method_attr_index name_and_type_index : Nat)
  | invokeDynamic (bootstrap_method_attr_index name_and_type_index : Nat)
  | moduleRef (name_index : Nat)
  | packageRef (name_index : Nat)
deriving DecidableEq, Repr

/-- `Constant::read` (`src/class.rs` lines 116-182; byte-for-byte the same
decode as `src/main.rs` lines 97-171): a 1-byte tag, then the
variant-specific payload.  Tag 1 reads a `u16` length, that many raw
bytes, and `String::from_utf8(data).unwrap()` — the unwrap panics on
invalid UTF-8.  Tag 15 reads the reference index first, the reference kind
second.  Unknown tags fail with `InvalidConstantTag`. -/
def Constant.read (s : List Nat) : DRes Constant :=
  DRes.bind (readU8 s) fun tag s =>
  match tag with
  | 1 =>
    DRes.bind (readU16 s) fun length s =>
    DRes.bind (readExact length s) fun data s =>
    match utf8Decode data with
    | some cps => .ok (.utf8 cps) s
    | none => .crash .utf8Invalid
  | 3 => DRes.bind (readU32 s) fun v s => .ok (.integer v) s
  | 4 => DRes.bind (readU32 s) fun v s => .ok (.float v) s
  | 5 => DRes.bind (readU64 s) fun v s => .ok (.long v) s
  | 6 => DRes.bind (readU64 s) fun v s => .ok (.double v) s
  | 7 => DRes.bind (readU16 s) fun v s => .ok (.classRef v) s
  | 8 => DRes.bind (readU16 s) fun v s => .ok (.stringRef v) s
  | 9 =>
    DRes.bind (readU16 s) fun a s =>
    DRes.bind (readU16 s) fun b s => .ok (.fieldRef a b) s
  | 10 =>
    DRes.bind (readU16 s) fun a s =>
    DRes.bind (readU16 s) fun b s => .ok (.methodRef a b) s
  | 11 =>
    DRes.bind (readU16 s) fun a s =>
    DRes.bind (readU16 s) fun b s => .ok (.interfaceMethodRef a b) s
  | 12 =>
    DRes.bind (readU16 s) fun a s =>
    DRes.bind (readU16 s) fun b s => .ok (.nameAndType a b) s
  | 15 =>
    DRes.bind (readU16 s) fun idx s =>
    DRes.bind (readU16 s) fun kind s => .ok (.methodHandle kind idx) s
  | 16 => DRes.bind (readU16 s) fun v s => .ok (.methodType v) s
  | 17 =>
    DRes.bind (readU16 s) fun a s =>
    DRes.bind (readU16 s) fun b s => .ok (.dynamic a b) s
  | 18 =>
    DRes.bind (readU16 s) fun a s =>
    DRes.bind (readU16 s) fun b s => .ok (.invokeDynamic a b) s
  | 19 => DRes.bind (readU16 s) fun v s => .ok (.moduleRef v) s
  | 20 => DRes.bind (readU16 s) fun v s => .ok (.packageRef v) s
  | _ => .err (.invalidConstantTag tag)

/-- `ConstantPool` (`src/class.rs` lines 184-187). -/
structure ConstantPool where
  pool : List Constant
deriving DecidableEq, Repr

/-- `ConstantPool::read` (`src/class.rs` lines 190-201; the same decode as
`src/main.rs` lines 178-190, whose extra `println!` is I/O only): a `u16`
count, then `count - 1` constants.  `constant_pool_count - 1` is an
unchecked `u16` subtraction: for count `0` it underflows and panics under
the default overflow-checked build. -/
def ConstantPool.read (s : List Nat) : DRes ConstantPool :=
  DRes.bind (readU16 s) fun constant_pool_count s =>
  if constant_pool_count = 0 then .crash .subUnderflow
  else
    DRes.bind (readList Constant.read (constant_pool_count - 1) s) fun pool s =>
    .ok { pool := pool } s

/-- `ConstantPool::string` (`src/class.rs` lines 203-211): `index as usize
- 1` (underflows and panics for index `0` under the default
overflow-checked build), then `pool.get(..)`: out of bounds is
`InvalidConstantPoolIndex`, a non-`Utf8` entry is
`InvalidConstantPoolType`. -/
def ConstantPool.string (cp : ConstantPool) (index : Nat) : PRes (List Nat) :=
  match index with
  | 0 => .crash .subUnderflow
  | i + 1 =>
    match cp.pool[i]? with
    | none => .err .invalidConstantPoolIndex
    | some (.utf8 data) => .ok data
    | some _ => .err .invalidConstantPoolType

/-- `Attribute` (`src/class.rs` lines 227-231). -/
structure Attribute where
  name : List Nat
  info : List Nat
deriving DecidableEq, Repr

/-- `Attribute::read` (`src/class.rs` lines 233-244): `u16` name index
resolved through the pool, `u32` length, then exactly that many raw
bytes. -/
def Attribute.read (cp : ConstantPool) (s : List Nat) : DRes Attribute :=
  DRes.bind (readU16 s) fun name_index s =>
  DRes.bind (liftP (cp.string name_index) s) fun name s =>
  DRes.bind (readU32 s) fun info_length s =>
  DRes.bind (readExact info_length s) fun info s =>
  .ok { name := name, info := info } s

/-- `Field` (`src/class.rs` lines 246-252). -/
structure Field where
  access_flags : AccessFlags
  name : List Nat
  descriptor : List Nat
  attributes : List Attribute
deriving DecidableEq, Repr

/-- `Field::read` (`src/class.rs` lines 254-262). -/
def Field.read (cp : ConstantPool) (s : List Nat) : DRes Field :=
  DRes.bind (AccessFlags.read s) fun access_flags s =>
  DRes.bind (readU16 s) fun ni s =>
  DRes.bind (liftP (cp.string ni) s) fun name s =>
  DRes.bind (readU16 s) fun di s =>
  DRes.bind (liftP (cp.string di) s) fun descriptor s =>
  DRes.bind (read_vec (Attribute.read cp) s) fun attributes s =>
  .ok { access_flags := access_flags, name := name,
        descriptor := descriptor, attributes := attributes } s

/-- `Method` (`src/class.rs` lines 273-279). -/
structure Method where
  access_flags : AccessFlags
  name : List Nat
  descriptor : List Nat
  attributes : List Attribute
deriving DecidableEq, Repr

/-- `Method::read` (`src/class.rs` lines 281-289); identical shape to
`Field::read`. -/
def Method.read (cp : ConstantPool) (s : List Nat) : DRes Method :=
  DRes.bind (AccessFlags.read s) fun access_flags s =>
  DRes.bind (readU16 s) fun ni s =>
  DRes.bind (liftP (cp.string ni) s) fun name s =>
  DRes.bind (readU16 s) fun di s =>
  DRes.bind (liftP (cp.string di) s) fun descriptor s =>
  DRes.bind (read_vec (Attribute.read cp) s) fun attributes s =>
  .ok { access_flags := access_flags, name := name,
        descriptor := descriptor, attributes := attributes } s

/-- `Class` (`src/class.rs` lines 300-311). -/
structure Class where
  version : Version
  constant_pool : ConstantPool
  access_flags : AccessFlags
  this_class : Nat
  super_class : Nat
  interfaces : List Nat
  fields : List Field
  methods : List Method
  attributes : List Attribute
deriving DecidableEq, Repr

/-- `Class::from_bytes` (`src/class.rs` lines 324-352). -/
def Class.from_bytes (data : List Nat) : DRes Class :=
  DRes.bind (readU32 data) fun magic s =>
  if magic ≠ 0xCAFEBABE then .err (.invalidSignature magic)
  else
  DRes.bind (Version.read s) fun version s =>
  DRes.bind (ConstantPool.read s) fun constant_pool s =>
  DRes.bind (AccessFlags.read s) fun access_flags s =>
  DRes.bind (readU16 s) fun this_class s =>
  DRes.bind (readU16 s) fun super_class s =>
  DRes.bind (read_vec readU16 s) fun interfaces s =>
  DRes.bind (read_vec (Field.read constant_pool) s) fun fields s =>
  DRes.bind (read_vec (Method.read constant_pool) s) fun methods s =>
  DRes.bind (read_vec (Attribute.read constant_pool) s) fun attributes s =>
  .ok { version := version, constant_pool := constant_pool,
        access_flags := access_flags, this_class := this_class,
        super_class := super_class, interfaces := interfaces,
        fields := fields, methods := methods, attributes := attributes } s

/-- `Class::method` (`src/class.rs` lines 354-356): first method in
declared order whose name equals the given text. -/
def Class.method (c : Class) (name : List Nat) : Option Method :=
  c.methods.find? (fun m => m.name == name)

end Lyre

namespace MainRs

/-- `Attribute` (`src/main.rs` lines 193-196): keeps the raw name index,
unresolved. -/
structure Attribute where
  attribute_name_index : Nat
  info : List Nat
deriving DecidableEq, Repr

/-- `Attribute::read` (`src/main.rs` lines 198-209).  The source calls
`r.read_exact(&mut info);` WITHOUT `?`: the `Result` is discarded.  With
`std`'s `Cursor`, a failing `read_exact` leaves the zero-initialized
buffer unchanged and moves the position to the end of the input; the error
is dropped and the function still returns `Ok`. -/
def Attribute.read (s : List Nat) : DRes Attribute :=
  DRes.bind (readU16 s) fun attribute_name_index s =>
  DRes.bind (readU32 s) fun info_length s =>
  if info_length ≤ s.length then
    .ok { attribute_name_index := attribute_name_index,
          info := s.take info_length } (s.drop info_length)
  else
    .ok { attribute_name_index := attribute_name_index,
          info := List.replicate info_length 0 } []

/-- `Field` (`src/main.rs` lines 211-216): raw `u16` fields, nothing
pool-resolved. -/
structure Field where
  access_flags : Nat
  name_index : Nat
  descriptor_index : Nat
  attributes : List Attribute
deriving DecidableEq, Repr

/-- `Field::read` (`src/main.rs` lines 218-236): four `u16`s then a counted
attribute loop (same shape as `read_vec`). -/
def Field.read (s : List Nat) : DRes Field :=
  DRes.bind (readU16 s) fun access_flags s =>
  DRes.bind (readU16 s) fun name_index s =>
  DRes.bind (readU16 s) fun descriptor_index s =>
  DRes.bind (read_vec Attribute.read s) fun attributes s =>
  .ok { access_flags := access_flags, name_index := name_index,
        descriptor_index := descriptor_index, attributes := attributes } s

/-- `Method` (`src/main.rs` lines 238-243). -/
structure Method where
  access_flags : Nat
  name_index : Nat
  descriptor_index : Nat
  attributes : List Attribute
deriving DecidableEq, Repr

/-- `Method::read` (`src/main.rs` lines 245-263); identical to
`Field::read`. -/
def Method.read (s : List Nat) : DRes Method :=
  DRes.bind (readU16 s) fun access_flags s =>
  DRes.bind (readU16 s) fun name_index s =>
  DRes.bind (readU16 s) fun descriptor_index s =>
  DRes.bind (read_vec Attribute.read s) fun attributes s =>
  .ok { access_flags := access_flags, name_index := name_index,
        descriptor_index := descriptor_index, attributes := attributes } s

/-- `Class` (`src/main.rs` lines 265-276): raw access flags, raw version
fields. -/
structure Class where
  major : Nat
  minor : Nat
  constant_pool : Lyre.ConstantPool
  access_flags : Nat
  this_class : Nat
  super_class : Nat
  interfaces : List Nat
  fields : List Field
  methods : List Method
  attributes : List Attribute
deriving DecidableEq, Repr

/-- `Class::from_bytes` (`src/main.rs` lines 289-345).  The inline version
check is `major > 56 && (minor != 0 || minor != 65535)` — note the `||`
where `src/class.rs` has `&&`.  The constant pool decode is the same as
`src/class.rs`'s (`src/main.rs` lines 178-190; its `println!` is I/O
only), so `Lyre.ConstantPool.read` is reused.  Access flags are kept as a
raw `u16` with no validation.  The counted loops for
interfaces/fields/methods/attributes have the `read_vec` shape. -/
def Class.from_bytes (data : List Nat) : DRes Class :=
  DRes.bind (readU32 data) fun magic s =>
  if magic ≠ 0xCAFEBABE then .err (.invalidSignature magic)
  else
  DRes.bind (readU16 s) fun minor s =>
  DRes.bind (readU16 s) fun major s =>
  if 56 < major ∧ (minor ≠ 0 ∨ minor ≠ 65535) then .err (.invalidVersion major minor)
  else
  DRes.bind (Lyre.ConstantPool.read s) fun constant_pool s =>
  DRes.bind (readU16 s) fun access_flags s =>
  DRes.bind (readU16 s) fun this_class s =>
  DRes.bind (readU16 s) fun super_class s =>
  DRes.bind (read_vec readU16 s) fun interfaces s =>
  DRes.bind (read_vec Field.read s) fun fields s =>
  DRes.bind (read_vec Method.read s) fun methods s =>
  DRes.bind (read_vec Attribute.read s) fun attributes s =>
  .ok { major := major, minor := minor, constant_pool := constant_pool,
        access_flags := access_flags, this_class := this_class,
        super_class := super_class, interfaces := interfaces,
        fields := fields, methods := methods, attributes := attributes } s

end MainRs

/-! ## Reduction lemmas for the byte readers -/

@[simp]
theorem DRes.bind_ok {α β : Type} (a : α) (s : List Nat) (f : α → List Nat → DRes β) :
    DRes.bind (.ok a s) f = f a s := rfl

@[simp]
theorem DRes.bind_err {α β : Type} (e : Err) (f : α → List Nat → DRes β) :
    DRes.bind (.err e) f = .err e := rfl

@[simp]
theorem DRes.bind_crash {α β : Type} (k : CrashKind) (f : α → List Nat → DRes β) :
    DRes.bind (.crash k) f = .crash k := rfl

@[simp]
theorem readU8_nil : readU8 [] = .err .io := rfl

@[simp]
theorem readU8_cons (b : Nat) (s : List Nat) : readU8 (b :: s) = .ok b s := rfl

@[simp]
theorem readU16_cons (b0 b1 : Nat) (s : List Nat) :
    readU16 (b0 :: b1 :: s) = .ok (b0 * 256 + b1) s := rfl

@[simp]
theorem readU32_cons (b0 b1 b2 b3 : Nat) (s : List Nat) :
    readU32 (b0 :: b1 :: b2 :: b3 :: s) =
      .ok ((b0 * 256 + b1) * 65536 + (b2 * 256 + b3)) s := rfl

/-! ## C1 -/

/-- The version rule of `Version::read`, as one closed-form equation: the
source's rejection test `major > 56 && minor != 0 && minor != 65535`
negated into an acceptance condition. -/
theorem version_read_eq (b0 b1 b2 b3 : Nat) (rest : List Nat) :
    Lyre.Version.read (b0 :: b1 :: b2 :: b3 :: rest) =
      if b2 * 256 + b3 ≤ 56 ∨ b0 * 256 + b1 = 0 ∨ b0 * 256 + b1 = 65535 then
        .ok ⟨b2 * 256 + b3, b0 * 256 + b1⟩ rest
      else
        .err (.invalidVersion (b2 * 256 + b3) (b0 * 256 + b1)) := by
  simp only [Lyre.Version.read, readU16_cons, DRes.bind_ok]
  by_cases h : 56 < b2 * 256 + b3 ∧ b0 * 256 + b1 ≠ 0 ∧ b0 * 256 + b1 ≠ 65535
  · rw [if_pos h, if_neg (by omega)]
  · rw [if_neg h, if_pos (by omega)]

/-- C1: `Version::read` (`src/class.rs`) reads minor then major and accepts
iff `major ≤ 56` or `minor = 0` or `minor = 65535`, failing with
`InvalidVersion{major, minor}` otherwise; in particular major 57 / minor 1
fails with `InvalidVersion{57,1}`, major 57 / minor 0 succeeds, and major
45 / minor 3 succeeds.  However, the cited inline version check of
`src/main.rs`'s `Class::from_bytes` violates this: its condition
`minor != 0 || minor != 65535` is a tautology, so it rejects major 57 with
minor 0 (the last conjunct is the failing input). -/
theorem version_read_rule :
    (∀ b0 b1 b2 b3 : Nat, ∀ rest : List Nat,
      Lyre.Version.read (b0 :: b1 :: b2 :: b3 :: rest) =
        if b2 * 256 + b3 ≤ 56 ∨ b0 * 256 + b1 = 0 ∨ b0 * 256 + b1 = 65535 then
          .ok ⟨b2 * 256 + b3, b0 * 256 + b1⟩ rest
        else
          .err (.invalidVersion (b2 * 256 + b3) (b0 * 256 + b1))) ∧
    (∀ rest : List Nat,
      Lyre.Version.read (0 :: 1 :: 0 :: 57 :: rest) = .err (.invalidVersion 57 1)) ∧
    (∀ rest : List Nat,
      Lyre.Version.read (0 :: 0 :: 0 :: 57 :: rest) = .ok ⟨57, 0⟩ rest) ∧
    (∀ rest : List Nat,
      Lyre.Version.read (0 :: 3 :: 0 :: 45 :: rest) = .ok ⟨45, 3⟩ rest) ∧
    MainRs.Class.from_bytes [0xCA, 0xFE, 0xBA, 0xBE, 0, 0, 0, 57] =
      .err (.invalidVersion 57 0) := by
  refine ⟨version_read_eq, ?_, ?_, ?_, ?_⟩
  · intro rest; rw [version_read_eq]; norm_num
  · intro rest; rw [version_read_eq]; norm_num
  · intro rest; rw [version_read_eq]; norm_num
  · decide

/-! ## C4 -/

/-- C4: for every input whose first four bytes, big-endian, are not
`0xCAFEBABE`, `Class::from_bytes` (`src/class.rs`) fails with
`InvalidSignature` carrying that `u32`, and the bytes after the first four
play no part (the result is the same for every continuation of the
stream). -/
theorem bad_magic_fails (b0 b1 b2 b3 : Nat) (rest : List Nat)
    (h : (b0 * 256 + b1) * 65536 + (b2 * 256 + b3) ≠ 0xCAFEBABE) :
    Lyre.Class.from_bytes (b0 :: b1 :: b2 :: b3 :: rest) =
      .err (.invalidSignature ((b0 * 256 + b1) * 65536 + (b2 * 256 + b3))) ∧
    (∀ rest2 : List Nat,
      Lyre.Class.from_bytes (b0 :: b1 :: b2 :: b3 :: rest) =
        Lyre.Class.from_bytes (b0 :: b1 :: b2 :: b3 :: rest2)) := by
  constructor
  · simp only [Lyre.Class.from_bytes, readU32_cons, DRes.bind_ok]
    rw [if_pos h]
  · intro rest2
    simp only [Lyre.Class.from_bytes, readU32_cons, DRes.bind_ok]
    rw [if_pos h, if_pos h]

/-- Witness for C4 at a concrete input: four zero bytes are not the magic
number. -/
theorem bad_magic_fails_witness :
    Lyre.Class.from_bytes [0, 0, 0, 0] = .err (.invalidSignature 0) :=
  (bad_magic_fails 0 0 0 0 [] (by decide)).1

/-! ## C5 -/

/-- A `u16` word has no bits at positions 16 and above. -/
theorem testBit_high {bits i : Nat} (h : bits < 65536) (hge : 16 ≤ i) :
    bits.testBit i = false :=
  Nat.testBit_eq_false_of_lt
    (lt_of_lt_of_le h (by simpa using Nat.pow_le_pow_right (by norm_num : 1 ≤ 2) hge))

/-- For a `u16` word, `bits & 0xE200 = 0` (the `from_bits` acceptance test,
`0xE200` being the `u16` complement of the flag vocabulary `0x1DFF`) says
exactly that every set bit lies inside the vocabulary. -/
theorem land_vocab_iff {bits : Nat} (h : bits < 65536) :
    bits &&& 0xE200 = 0 ↔ bits &&& 0x1DFF = bits := by
  have hcover : ∀ i, i < 16 →
      (Nat.testBit 0x1DFF i = !Nat.testBit 0xE200 i) := by decide
  constructor
  · intro h1
    apply Nat.eq_of_testBit_eq
    intro i
    rw [Nat.testBit_land]
    by_cases hb : bits.testBit i
    · by_cases hi : i < 16
      · have he : Nat.testBit 0xE200 i = false := by
          have h2 := congrArg (fun n => Nat.testBit n i) h1
          simp only [Nat.testBit_land, Nat.zero_testBit, Bool.and_eq_false_iff] at h2
          rcases h2 with h2 | h2
          · exact absurd h2 (by simp [hb])
          · exact h2
        rw [hb, hcover i hi, he]
        rfl
      · rw [testBit_high h (by omega)] at hb
        exact absurd hb (by simp)
    · simp only [Bool.not_eq_true] at hb
      rw [hb]
      rfl
  · intro h2
    apply Nat.eq_of_testBit_eq
    intro i
    rw [Nat.testBit_land, Nat.zero_testBit]
    by_cases hb : bits.testBit i
    · have hi : i < 16 := by
        by_contra hge
        rw [testBit_high h (by omega)] at hb
        exact absurd hb (by simp)
      have hv : Nat.testBit 0x1DFF i = true := by
        have h3 := congrArg (fun n => Nat.testBit n i) h2
        simp only [Nat.testBit_land, hb, Bool.and_eq_true] at h3
        exact h3.2
      have := hcover i hi
      rw [hv] at this
      rw [hb, (by simpa using this.symm : Nat.testBit 0xE200 i = false)]
      rfl
    · simp only [Bool.not_eq_true] at hb
      rw [hb]
      rfl

/-- `Self::all()` of the bitflags declaration evaluates to `0x1DFF`
(bit `0x0200` is not in the vocabulary), and its `u16` complement is
`0xE200`. -/
theorem accessFlags_all_eq : Lyre.AccessFlags.all = 0x1DFF ∧
    0xFFFF ^^^ Lyre.AccessFlags.all = 0xE200 := by
  constructor <;> decide

/-- C5: `AccessFlags::read` reads one big-endian `u16` and succeeds iff
every set bit lies in the 12-flag vocabulary (whose union is
`AccessFlags.all`); any bit outside it fails with `InvalidAccessFlags`
carrying the raw bits.  Bits `0x2000` fail with
`InvalidAccessFlags(0x2000)`; bits `0x0021` succeed with both `PUBLIC` and
`SYNCHRONIZED` queryable in the result. -/
theorem access_flags_vocabulary :
    (∀ hi lo : Nat, ∀ rest : List Nat, hi < 256 → lo < 256 →
      ((∃ f s2, Lyre.AccessFlags.read (hi :: lo :: rest) = .ok f s2) ↔
        (hi * 256 + lo) &&& Lyre.AccessFlags.all = hi * 256 + lo) ∧
      (¬ ((hi * 256 + lo) &&& Lyre.AccessFlags.all = hi * 256 + lo) →
        Lyre.AccessFlags.read (hi :: lo :: rest) =
          .err (.invalidAccessFlags (hi * 256 + lo)))) ∧
    (∀ rest : List Nat,
      Lyre.AccessFlags.read (0x20 :: 0x00 :: rest) =
        .err (.invalidAccessFlags 0x2000)) ∧
    (∀ rest : List Nat,
      Lyre.AccessFlags.read (0x00 :: 0x21 :: rest) = .ok ⟨0x21⟩ rest) ∧
    Lyre.AccessFlags.contains ⟨0x21⟩ Lyre.AccessFlags.PUBLIC = true ∧
    Lyre.AccessFlags.contains ⟨0x21⟩ Lyre.AccessFlags.SYNCHRONIZED = true := by
  refine ⟨?_, ?_, ?_, by decide, by decide⟩
  · intro hi lo rest h1 h2
    have hbits : hi * 256 + lo < 65536 := by omega
    have hiff := land_vocab_iff hbits
    rw [accessFlags_all_eq.1]
    simp only [Lyre.AccessFlags.read, readU16_cons, DRes.bind_ok,
      Lyre.AccessFlags.from_bits, accessFlags_all_eq.2]
    by_cases hc : (hi * 256 + lo) &&& 0xE200 = 0
    · rw [if_pos hc]
      refine ⟨⟨fun _ => hiff.mp hc, fun _ => ⟨⟨hi * 256 + lo⟩, rest, rfl⟩⟩, ?_⟩
      intro hm
      exact absurd (hiff.mp hc) hm
    · rw [if_neg hc]
      refine ⟨⟨?_, fun hm => absurd (hiff.mpr hm) hc⟩, fun _ => rfl⟩
      rintro ⟨f, s2, hfs⟩
      exact absurd hfs (by simp)
  · intro rest
    rfl
  · intro rest
    rfl

/-- Witness for C5 at concrete bytes `0x10 0x31`: `0x1031` has only
vocabulary bits set, so the read succeeds. -/
theorem access_flags_vocabulary_witness :
    (∃ f s2, Lyre.AccessFlags.read [0x10, 0x31] = .ok f s2) ∧
    Lyre.AccessFlags.read [0x20, 0x00] = .err (.invalidAccessFlags 0x2000) :=
  ⟨((access_flags_vocabulary.1 0x10 0x31 [] (by decide) (by decide)).1).mpr (by decide),
   access_flags_vocabulary.2.1 []⟩

/-! ## C2 -/

/-- C2 counterexample: the pool decoded from `constant_pool_count = 1`
holds zero constants, but `string(0)` on it does not fail with
`InvalidConstantPoolIndex` as the claim states — the `index as usize - 1`
subtraction underflows and the function panics (default overflow-checked
build). -/
theorem pool_string_index_zero_cex :
    Lyre.ConstantPool.read [0, 1] = .ok ⟨[]⟩ [] ∧
    Lyre.ConstantPool.string ⟨[]⟩ 0 = .crash .subUnderflow ∧
    Lyre.ConstantPool.string ⟨[]⟩ 0 ≠ .err .invalidConstantPoolIndex := by
  refine ⟨by decide, rfl, by decide⟩

/-- C2 amended: `ConstantPool::string` interprets `index` as 1-based.
Index `0` underflows `index - 1` and panics (default overflow-checked
build) instead of returning an error; every index `i + 1` returns the text
of `pool[i]` when that entry is a `Utf8` constant, fails with
`InvalidConstantPoolIndex` when `i` is out of the pool's bounds (for the
pool decoded from `constant_pool_count = 1`, which holds zero constants,
every index `≥ 1` fails so), and fails with `InvalidConstantPoolType` when
the entry is not a `Utf8` constant. -/
theorem pool_string_spec :
    (∀ cp : Lyre.ConstantPool, cp.string 0 = .crash .subUnderflow) ∧
    (∀ (cp : Lyre.ConstantPool) (i : Nat), cp.pool.length ≤ i →
      cp.string (i + 1) = .err .invalidConstantPoolIndex) ∧
    (∀ (cp : Lyre.ConstantPool) (i : Nat) (data : List Nat),
      cp.pool[i]? = some (.utf8 data) → cp.string (i + 1) = .ok data) ∧
    (∀ (cp : Lyre.ConstantPool) (i : Nat) (c : Lyre.Constant),
      cp.pool[i]? = some c → (∀ data, c ≠ .utf8 data) →
      cp.string (i + 1) = .err .invalidConstantPoolType) ∧
    (Lyre.ConstantPool.read [0, 1] = .ok ⟨[]⟩ [] ∧
     ∀ i : Nat, Lyre.ConstantPool.string ⟨[]⟩ (i + 1) =
       .err .invalidConstantPoolIndex) := by
  refine ⟨fun cp => rfl, ?_, ?_, ?_, by decide, ?_⟩
  · intro cp i h
    simp only [Lyre.ConstantPool.string, List.getElem?_eq_none h]
  · intro cp i data h
    simp only [Lyre.ConstantPool.string, h]
  · intro cp i c h hne
    simp only [Lyre.ConstantPool.string, h]
  · intro i
    simp [Lyre.ConstantPool.string]

/-- Witness for C2's amended theorem at concrete pools. -/
theorem pool_string_spec_witness :
    Lyre.ConstantPool.string ⟨[]⟩ 0 = .crash .subUnderflow ∧
    Lyre.ConstantPool.string ⟨[]⟩ 1 = .err .invalidConstantPoolIndex ∧
    Lyre.ConstantPool.string ⟨[.utf8 [65]]⟩ 1 = .ok [65] ∧
    Lyre.ConstantPool.string ⟨[.integer 7]⟩ 1 = .err .invalidConstantPoolType :=
  ⟨pool_string_spec.1 ⟨[]⟩,
   pool_string_spec.2.1 ⟨[]⟩ 0 (by decide),
   pool_string_spec.2.2.1 ⟨[.utf8 [65]]⟩ 0 [65] rfl,
   pool_string_spec.2.2.2.1 ⟨[.integer 7]⟩ 0 (.integer 7) rfl
     (fun data h => Lyre.Constant.noConfusion h)⟩

/-! ## C7 -/

/-! ## Crash-freedom helpers (for C9) -/

theorem DRes.bind_ne_crash {α β : Type} {r : DRes α} {f : α → List Nat → DRes β}
    {k : CrashKind} (h1 : r ≠ .crash k) (h2 : ∀ a s, f a s ≠ .crash k) :
    DRes.bind r f ≠ .crash k := by
  cases r with
  | ok a s => exact h2 a s
  | err e => rw [DRes.bind_err]; simp
  | crash k2 =>
    rw [DRes.bind_crash]
    intro hh
    apply h1
    cases hh
    rfl

theorem readU8_ne_crash (s : List Nat) (k : CrashKind) : readU8 s ≠ .crash k := by
  cases s <;> simp [readU8]

theorem readU16_ne_crash (s : List Nat) (k : CrashKind) : readU16 s ≠ .crash k := by
  refine DRes.bind_ne_crash (readU8_ne_crash s k) fun a s2 => ?_
  refine DRes.bind_ne_crash (readU8_ne_crash s2 k) fun b s3 => ?_
  simp

theorem readU32_ne_crash (s : List Nat) (k : CrashKind) : readU32 s ≠ .crash k := by
  refine DRes.bind_ne_crash (readU16_ne_crash s k) fun a s2 => ?_
  refine DRes.bind_ne_crash (readU16_ne_crash s2 k) fun b s3 => ?_
  simp

theorem readU64_ne_crash (s : List Nat) (k : CrashKind) : readU64 s ≠ .crash k := by
  refine DRes.bind_ne_crash (readU32_ne_crash s k) fun a s2 => ?_
  refine DRes.bind_ne_crash (readU32_ne_crash s2 k) fun b s3 => ?_
  simp

theorem readExact_ne_crash (n : Nat) (s : List Nat) (k : CrashKind) :
    readExact n s ≠ .crash k := by
  unfold readExact
  split <;> simp

/-- `Constant::read` can only panic at the `from_utf8` unwrap, never at a
subtraction: no branch of the tag dispatch performs count arithmetic. -/
theorem constant_read_ne_crash_sub (s : List Nat) :
    Lyre.Constant.read s ≠ .crash .subUnderflow := by
  cases s with
  | nil => simp [Lyre.Constant.read]
  | cons b s1 =>
    simp only [Lyre.Constant.read, readU8_cons, DRes.bind_ok]
    split
    all_goals
      repeat'
        first
        | exact readU16_ne_crash _ _
        | exact readU32_ne_crash _ _
        | exact readU64_ne_crash _ _
        | exact readExact_ne_crash _ _ _
        | (split <;> simp)
        | (apply DRes.bind_ne_crash)
        | (intro a s)
        | simp

/-- A counted element loop never panics when no element decode panics. -/
theorem readList_ne_crash {α : Type} (f : List Nat → DRes α) (k : CrashKind)
    (hf : ∀ s, f s ≠ .crash k) :
    ∀ (n : Nat) (s : List Nat), readList f n s ≠ .crash k := by
  intro n
  induction n with
  | zero => intro s; simp [readList]
  | succ m ih =>
    intro s
    refine DRes.bind_ne_crash (hf s) fun a s2 => ?_
    refine DRes.bind_ne_crash (ih s2) fun as s3 => ?_
    simp

/-- A successful counted element loop returns exactly `n` elements. -/
theorem readList_length {α : Type} (f : List Nat → DRes α) :
    ∀ (n : Nat) (s : List Nat) (as : List α) (s2 : List Nat),
      readList f n s = .ok as s2 → as.length = n := by
  intro n
  induction n with
  | zero =>
    intro s as s2 h
    simp only [readList] at h
    cases h
    rfl
  | succ m ih =>
    intro s as s2 h
    simp only [readList] at h
    cases hf : f s with
    | ok a sa =>
      rw [hf, DRes.bind_ok] at h
      cases hr : readList f m sa with
      | ok as2 sb =>
        rw [hr, DRes.bind_ok] at h
        cases h
        simpa using ih _ _ _ hr
      | err e => rw [hr] at h; cases h
      | crash k => rw [hr] at h; cases h
    | err e => rw [hf] at h; cases h
    | crash k => rw [hf] at h; cases h

/-! ## C9 -/

/-- C9: `ConstantPool::read` implicitly requires `constant_pool_count ≥ 1`.
For a `u16` count of `0` the expression `constant_pool_count - 1`
underflows and the function panics (default overflow-checked build)
rather than returning an `Error`; for every count `≥ 1` no panic can come
from the count arithmetic, and a successful decode holds exactly
`count - 1` constants, decoded in stream order. -/
theorem constant_pool_count_arith :
    (∀ rest : List Nat,
      Lyre.ConstantPool.read (0 :: 0 :: rest) = .crash .subUnderflow) ∧
    (∀ hi lo : Nat, ∀ rest : List Nat, 0 < hi * 256 + lo →
      Lyre.ConstantPool.read (hi :: lo :: rest) ≠ .crash .subUnderflow) ∧
    (∀ hi lo : Nat, ∀ rest : List Nat, ∀ cp : Lyre.ConstantPool, ∀ s2 : List Nat,
      Lyre.ConstantPool.read (hi :: lo :: rest) = .ok cp s2 →
      cp.pool.length = hi * 256 + lo - 1) := by
  refine ⟨fun rest => rfl, ?_, ?_⟩
  · intro hi lo rest hpos
    simp only [Lyre.ConstantPool.read, readU16_cons, DRes.bind_ok]
    rw [if_neg (by omega)]
    refine DRes.bind_ne_crash
      (readList_ne_crash _ _ constant_read_ne_crash_sub (hi * 256 + lo - 1) rest)
      fun pool s3 => ?_
    simp
  · intro hi lo rest cp s2 h
    simp only [Lyre.ConstantPool.read, readU16_cons, DRes.bind_ok] at h
    by_cases hz : hi * 256 + lo = 0
    · rw [if_pos hz] at h; cases h
    · rw [if_neg hz] at h
      cases hr : readList Lyre.Constant.read (hi * 256 + lo - 1) rest with
      | ok pool s3 =>
        rw [hr, DRes.bind_ok] at h
        cases h
        simpa using readList_length _ _ _ _ _ hr
      | err e => rw [hr] at h; cases h
      | crash k => rw [hr] at h; cases h

/-- Witness for C9 at concrete inputs: count `2` (bytes `0 2`) panics
nowhere on the count arithmetic, and a successful decode from count `1`
holds `1 - 1 = 0` constants. -/
theorem constant_pool_count_arith_witness :
    Lyre.ConstantPool.read (0 :: 0 :: []) = .crash .subUnderflow ∧
    Lyre.ConstantPool.read (0 :: 2 :: [3, 0, 0, 0, 5]) ≠ .crash .subUnderflow ∧
    (Lyre.ConstantPool.mk []).pool.length = 0 * 256 + 1 - 1 :=
  ⟨constant_pool_count_arith.1 [],
   constant_pool_count_arith.2.1 0 2 [3, 0, 0, 0, 5] (by decide),
   constant_pool_count_arith.2.2 0 1 [] ⟨[]⟩ [] (by decide)⟩

/-! ## C10 -/

/-- C10: `Constant::read` with tag 1 (Utf8) is not total over its error
type: with the declared number of payload bytes available, it returns the
`Utf8` variant exactly when the payload is valid standard UTF-8, and when
the payload is not valid UTF-8 the `String::from_utf8(..).unwrap()`
panics instead of returning an `Error`. -/
theorem utf8_constant_totality (l1 l0 : Nat) (payload rest : List Nat)
    (hlen : payload.length = l1 * 256 + l0) :
    Lyre.Constant.read (1 :: l1 :: l0 :: (payload ++ rest)) =
      (match utf8Decode payload with
       | some cps => .ok (.utf8 cps) rest
       | none => .crash .utf8Invalid) ∧
    ((utf8Decode payload).isSome ↔
      ∃ cps, Lyre.Constant.read (1 :: l1 :: l0 :: (payload ++ rest)) =
        .ok (.utf8 cps) rest) := by
  have hmain : Lyre.Constant.read (1 :: l1 :: l0 :: (payload ++ rest)) =
      (match utf8Decode payload with
       | some cps => .ok (.utf8 cps) rest
       | none => .crash .utf8Invalid) := by
    simp only [Lyre.Constant.read, readU8_cons, readU16_cons, DRes.bind_ok]
    rw [readExact, if_pos (by simp [hlen.symm]), List.take_left' hlen,
      List.drop_left' hlen, DRes.bind_ok]
  refine ⟨hmain, ?_⟩
  rw [hmain]
  cases hu : utf8Decode payload with
  | some cps => simp
  | none => simp

/-- Witness for C10 at concrete inputs: byte `0xFF` is invalid UTF-8 and
makes the unwrap panic; byte `0x41` is valid and yields the `Utf8`
variant. -/
theorem utf8_constant_totality_witness :
    Lyre.Constant.read [1, 0, 1, 0xFF] = .crash .utf8Invalid ∧
    Lyre.Constant.read [1, 0, 1, 0x41] = .ok (.utf8 [0x41]) [] := by
  constructor
  · have h := (utf8_constant_totality 0 1 [0xFF] [] rfl).1
    rw [show utf8Decode [0xFF] = none from rfl] at h
    exact h
  · have h := (utf8_constant_totality 0 1 [0x41] [] rfl).1
    rw [show utf8Decode [0x41] = some [0x41] from rfl] at h
    exact h

/-- C7: `Constant::read` on tag 15 (MethodHandle) reads the `u16` reference
index first from the stream, the `u16` reference kind second, and stores
them in the `reference_index` and `reference_kind` fields respectively. -/
theorem method_handle_read_order :
    ∀ a b c d : Nat, ∀ rest : List Nat,
      Lyre.Constant.read (15 :: a :: b :: c :: d :: rest) =
        .ok (.methodHandle (c * 256 + d) (a * 256 + b)) rest := by
  intro a b c d rest
  simp [Lyre.Constant.read]

/-! ## C3 -/

/-- A class file whose final attribute declares a 4-byte payload but whose
input ends after a single payload byte `0xAB`: magic, minor 0, major 52,
a 1-entry pool holding `Utf8 "Code"`, access flags 0, this/super 0, no
interfaces/fields/methods, one attribute with name index 1 and declared
length 4. -/
def truncAttrBytes : List Nat :=
  [0xCA, 0xFE, 0xBA, 0xBE, 0, 0, 0, 52, 0, 2,
   1, 0, 4, 67, 111, 100, 101,
   0, 0, 0, 0, 0, 0, 0, 0, 0, 0, 0, 0, 0, 1,
   0, 1, 0, 0, 0, 4, 0xAB]

/-- C3: in the `src/class.rs` decoder, any read that requests more bytes
than remain — including the length-prefixed opaque payload of an
Attribute — fails with the truncation error, which each `DRes.bind` step
propagates unchanged, so `Class::from_bytes` fails and no partial `Class`
is produced.  However, the cited `src/main.rs` `Attribute::read` discards
the result of its payload `read_exact` (the `?` is missing), so on
`truncAttrBytes` — where the `src/class.rs` decoder fails with the
truncation error — `src/main.rs`'s `Class::from_bytes` succeeds with a
zero-filled attribute payload. -/
theorem truncated_attribute_payload :
    (∀ n : Nat, ∀ s : List Nat, s.length < n → readExact n s = .err .io) ∧
    (∀ (α β : Type) (e : Err) (f : α → List Nat → DRes β),
      DRes.bind (.err e) f = .err e) ∧
    Lyre.Attribute.read ⟨[.utf8 [67, 111, 100, 101]]⟩ [0, 1, 0, 0, 0, 4, 0xAB] =
      .err .io ∧
    Lyre.Class.from_bytes truncAttrBytes = .err .io ∧
    MainRs.Class.from_bytes truncAttrBytes =
      .ok ⟨52, 0, ⟨[.utf8 [67, 111, 100, 101]]⟩, 0, 0, 0, [], [], [],
           [⟨1, [0, 0, 0, 0]⟩]⟩ [] := by
  refine ⟨?_, fun α β e f => rfl, by decide, by decide, by decide⟩
  intro n s h
  rw [readExact, if_neg (by omega)]

/-- Witness for C3 at a concrete truncation: one byte requested from an
empty stream. -/
theorem truncated_attribute_payload_witness :
    readExact 1 [] = .err .io :=
  truncated_attribute_payload.1 1 [] (by decide)

/-! ## C6 -/

/-- The code points of the text `main`. -/
def mainText : List Nat := [109, 97, 105, 110]

/-- The code points of the text `()V`. -/
def voidDescText : List Nat := [40, 41, 86]

/-- The code points of the text `Code`. -/
def codeText : List Nat := [67, 111, 100, 101]

/-- End-to-end scenario input: magic, minor 0, major 52, a 3-entry pool
`[Utf8 "main", Utf8 "()V", Utf8 "Code"]`, access flags 0x0021, this/super
0, no interfaces or fields, one method (flags 0x0001, name index 1,
descriptor index 2, no attributes), no class attributes. -/
def scenarioBytes : List Nat :=
  [0xCA, 0xFE, 0xBA, 0xBE, 0, 0, 0, 52, 0, 4,
   1, 0, 4, 109, 97, 105, 110,
   1, 0, 3, 40, 41, 86,
   1, 0, 4, 67, 111, 100, 101,
   0, 0x21, 0, 0, 0, 0, 0, 0, 0, 0,
   0, 1, 0, 1, 0, 1, 0, 2, 0, 0,
   0, 0]

/-- The `Class` value that `scenarioBytes` decodes to. -/
def scenarioClass : Lyre.Class :=
  ⟨⟨52, 0⟩, ⟨[.utf8 mainText, .utf8 voidDescText, .utf8 codeText]⟩, ⟨0x21⟩,
   0, 0, [], [], [⟨⟨1⟩, mainText, voidDescText, []⟩], []⟩

/-- `find?` returns the first element satisfying the predicate: it
satisfies it, and everything before it in the list does not. -/
theorem find?_first {α : Type} (p : α → Bool) :
    ∀ (l : List α) (a : α), l.find? p = some a →
      p a = true ∧ ∃ l1 l2, l = l1 ++ a :: l2 ∧ ∀ x ∈ l1, p x = false := by
  intro l
  induction l with
  | nil => intro a h; simp at h
  | cons b t ih =>
    intro a h
    by_cases hb : p b
    · rw [List.find?_cons_of_pos _ hb] at h
      cases h
      exact ⟨hb, [], t, rfl, by simp⟩
    · rw [List.find?_cons_of_neg _ hb] at h
      obtain ⟨hpa, l1, l2, hl, hall⟩ := ih a h
      refine ⟨hpa, b :: l1, l2, by rw [hl]; rfl, ?_⟩
      intro x hx
      rcases List.mem_cons.mp hx with hx | hx
      · subst hx; simpa using hb
      · exact hall x hx

/-- C6: `Class::method(name)` returns the first method in declared (stream)
order whose resolved name equals `name`, and `none` when no method has
that name.  In the end-to-end scenario with the 3-entry pool
`[Utf8 "main", Utf8 "()V", Utf8 "Code"]` and one method with name index 1
and descriptor index 2, `method("main")` returns a method whose
descriptor text equals `"()V"`. -/
theorem class_method_lookup :
    (∀ (c : Lyre.Class) (name : List Nat),
      (c.method name = none ↔ ∀ m ∈ c.methods, m.name ≠ name) ∧
      (∀ m, c.method name = some m →
        m.name = name ∧
        ∃ l1 l2, c.methods = l1 ++ m :: l2 ∧ ∀ m2 ∈ l1, m2.name ≠ name)) ∧
    (Lyre.Class.from_bytes scenarioBytes = .ok scenarioClass [] ∧
     scenarioClass.method mainText = some ⟨⟨1⟩, mainText, voidDescText, []⟩ ∧
     Lyre.Method.descriptor ⟨⟨1⟩, mainText, voidDescText, []⟩ = voidDescText) := by
  constructor
  · intro c name
    constructor
    · rw [Lyre.Class.method, List.find?_eq_none]
      constructor
      · intro h m hm
        simpa using h m hm
      · intro h m hm
        simpa using h m hm
    · intro m hm
      obtain ⟨hp, l1, l2, hl, hall⟩ := find?_first _ _ _ hm
      refine ⟨by simpa using hp, l1, l2, hl, ?_⟩
      intro m2 hm2
      simpa using hall m2 hm2
  · exact ⟨by decide, by decide, rfl⟩

/-- Witness for C6: applying the first-match characterization to the
decoded scenario class at the name `main`. -/
theorem class_method_lookup_witness :
    Lyre.Method.name ⟨⟨1⟩, mainText, voidDescText, []⟩ = mainText ∧
    ∃ l1 l2,
      scenarioClass.methods =
        l1 ++ (⟨⟨1⟩, mainText, voidDescText, []⟩ : Lyre.Method) :: l2 ∧
      ∀ m2 ∈ l1, Lyre.Method.name m2 ≠ mainText :=
  (class_method_lookup.1 scenarioClass mainText).2 _ class_method_lookup.2.2.1

/-! ## C8 -/

/-- A minimal class file with major 57 and minor 0: magic, then an empty
pool (count 1), access flags 0x0001, this/super 0, and empty
interface/field/method/attribute lists. -/
def verCexBytes : List Nat :=
  [0xCA, 0xFE, 0xBA, 0xBE, 0, 0, 0, 57, 0, 1, 0, 1,
   0, 0, 0, 0, 0, 0, 0, 0, 0, 0, 0, 0]

/-- C8 counterexample: the two `Class::from_bytes` implementations are not
equivalent.  On `verCexBytes` (major 57, minor 0) the `src/class.rs`
decoder succeeds while the `src/main.rs` decoder fails with
`InvalidVersion{57,0}`, because its version condition
`minor != 0 || minor != 65535` is a tautology. -/
theorem from_bytes_equivalence_cex :
    Lyre.Class.from_bytes verCexBytes =
      .ok ⟨⟨57, 0⟩, ⟨[]⟩, ⟨1⟩, 0, 0, [], [], [], []⟩ [] ∧
    MainRs.Class.from_bytes verCexBytes = .err (.invalidVersion 57 0) := by
  exact ⟨by decide, by decide⟩

/-- C8 amended: the two implementations agree on the magic check — for a
non-`0xCAFEBABE` magic both fail with the same `InvalidSignature` — and
every version header that `src/main.rs` lets through (exactly those with
`major ≤ 56`, its minor test being a tautology) is also accepted by
`src/class.rs`'s `Version::read` with the same fields; but they are not
equivalent: for every version header with `major > 56` and
`minor ∈ {0, 65535}` (and any continuation of the stream),
`Version::read` accepts while `src/main.rs`'s `from_bytes` fails with
`InvalidVersion`. -/
theorem from_bytes_partial_agreement :
    (∀ b0 b1 b2 b3 : Nat, ∀ rest : List Nat,
      (b0 * 256 + b1) * 65536 + (b2 * 256 + b3) ≠ 0xCAFEBABE →
      Lyre.Class.from_bytes (b0 :: b1 :: b2 :: b3 :: rest) =
        .err (.invalidSignature ((b0 * 256 + b1) * 65536 + (b2 * 256 + b3))) ∧
      MainRs.Class.from_bytes (b0 :: b1 :: b2 :: b3 :: rest) =
        .err (.invalidSignature ((b0 * 256 + b1) * 65536 + (b2 * 256 + b3)))) ∧
    (∀ m0 m1 M0 M1 : Nat, ∀ rest : List Nat, M0 * 256 + M1 ≤ 56 →
      Lyre.Version.read (m0 :: m1 :: M0 :: M1 :: rest) =
        .ok ⟨M0 * 256 + M1, m0 * 256 + m1⟩ rest) ∧
    (∀ m0 m1 M0 M1 : Nat, ∀ rest : List Nat,
      56 < M0 * 256 + M1 → (m0 * 256 + m1 = 0 ∨ m0 * 256 + m1 = 65535) →
      Lyre.Version.read (m0 :: m1 :: M0 :: M1 :: rest) =
        .ok ⟨M0 * 256 + M1, m0 * 256 + m1⟩ rest ∧
      MainRs.Class.from_bytes
          (0xCA :: 0xFE :: 0xBA :: 0xBE :: m0 :: m1 :: M0 :: M1 :: rest) =
        .err (.invalidVersion (M0 * 256 + M1) (m0 * 256 + m1))) := by
  refine ⟨?_, ?_, ?_⟩
  · intro b0 b1 b2 b3 rest h
    constructor
    · simp only [Lyre.Class.from_bytes, readU32_cons, DRes.bind_ok]
      rw [if_pos h]
    · simp only [MainRs.Class.from_bytes, readU32_cons, DRes.bind_ok]
      rw [if_pos h]
  · intro m0 m1 M0 M1 rest h
    rw [version_read_eq, if_pos (Or.inl h)]
  · intro m0 m1 M0 M1 rest h56 hmin
    constructor
    · rw [version_read_eq, if_pos (Or.inr hmin)]
    · simp only [MainRs.Class.from_bytes, readU32_cons, readU16_cons,
        DRes.bind_ok]
      rw [if_neg (by norm_num), if_pos ⟨by omega, by omega⟩]

/-- Witness for C8's amended theorem at concrete inputs. -/
theorem from_bytes_partial_agreement_witness :
    Lyre.Class.from_bytes [0, 0, 0, 1] = .err (.invalidSignature 1) ∧
    MainRs.Class.from_bytes [0, 0, 0, 1] = .err (.invalidSignature 1) ∧
    Lyre.Version.read [0, 0, 0, 52] = .ok ⟨52, 0⟩ [] ∧
    MainRs.Class.from_bytes [0xCA, 0xFE, 0xBA, 0xBE, 0, 0, 0, 58] =
      .err (.invalidVersion 58 0) :=
  ⟨(from_bytes_partial_agreement.1 0 0 0 1 [] (by decide)).1,
   (from_bytes_partial_agreement.1 0 0 0 1 [] (by decide)).2,
   from_bytes_partial_agreement.2.1 0 0 0 52 [] (by decide),
   (from_bytes_partial_agreement.2.2 0 0 0 58 [] (by decide) (Or.inl rfl)).2⟩
